import Mathlib

/-
Verification of the aleo-prover-monitor poller (main.go, first revision).

The Go program is embedded shallowly: each fetch function becomes a pure
Lean function from the configuration, an environment (abstracting the
network transport, the JSON decoders of the four fixed response schemas,
strconv.ParseFloat and the Pushgateway push), and the state of the default
Prometheus registry, to a trace of observable events (HTTP queries, gauge
sets, pushes, invalid-value logs) together with the new registry state, the
Go return value and a panic flag.  prometheus.MustRegister panics when a
collector with the same name and constant labels is already registered;
this is modelled by mustRegister returning none.
-/

set_option maxHeartbeats 1000000

namespace AleoMon

/-- Identity of a Prometheus gauge as used for duplicate detection by
prometheus.MustRegister: metric name plus the constant labels attached. -/
structure GaugeId where
  name : String
  labels : List (String × String)
deriving DecidableEq

/-- The default Prometheus registry: the set (as a list) of gauge
identities registered so far. -/
abbrev Reg := List GaugeId

/-- prometheus.MustRegister: registers a new collector, or panics
(modelled as none) when an identical one is already registered. -/
def mustRegister (reg : Reg) (g : GaugeId) : Option Reg :=
  if g ∈ reg then none else some (reg ++ [g])

/-- A value stored in a gauge: either the result of parseFloat on a
string-typed JSON field, or a float64(int) conversion of an integer-typed
field.  The float type itself is abstracted by the parameter of GVal. -/
inductive GVal (α : Type) where
  | ofParsed : α → GVal α
  | ofInt : Int → GVal α
deriving DecidableEq

/-- An HTTP request as constructed by fetchData. -/
structure HttpRequest where
  method : String
  url : String
  contentType : String
  body : String
deriving DecidableEq

/-- A push to the Pushgateway: target URL, job name, and the collectors
handed to push.New(...).Collector(...).Push(). -/
structure PushReq where
  gateway : String
  job : String
  collectors : List GaugeId
deriving DecidableEq

/-- Observable events of a run. -/
inductive Ev (α : Type) where
  | query : HttpRequest → Ev α
  | gaugeSet : GaugeId → GVal α → Ev α
  | pushEv : PushReq → Ev α
  | logInvalid : String → String → Ev α
deriving DecidableEq

/-- The error returned by a fetch function, tagged by its origin.  The Go
code has no error constructor fed by a parse failure: parse failures log
and continue or return nil. -/
inductive Err where
  | createErr : Err
  | sendErr : Err
  | readErr : Err
  | decodeErr : String → Err
  | pushErr : String → Err
deriving DecidableEq

/-- Outcome of the http.NewRequest / client.Do / ioutil.ReadAll sequence
inside fetchData.  On success the status code and the body bytes are
available; the Go code never inspects the status code. -/
inductive TransportOutcome where
  | createFail : TransportOutcome
  | roundTripFail : TransportOutcome
  | readFail : TransportOutcome
  | success : Nat → String → TransportOutcome
deriving DecidableEq

/-- One item of the prover_speed_list response (anonymous struct in Go):
address and the string-typed speed. -/
structure SpeedItem where
  address : String
  speed : String
deriving DecidableEq

/-- The data part of the prover_speed_list response. -/
structure SpeedData where
  list : List SpeedItem
  total : String
deriving DecidableEq

/-- One item of the prover_reward_list response. -/
structure RewardItem where
  address : String
  total_reward : String
deriving DecidableEq

/-- The data part of the prover_reward_list response. -/
structure RewardData where
  list : List RewardItem
  total : String
deriving DecidableEq

/-- One item of the prover_latest_height response (height is an int). -/
structure HeightItem where
  address : String
  height : Int
deriving DecidableEq

/-- The data part of the latest_block response. -/
structure BlockData where
  height : Int
  proof_target : String
  coinbase_reward : String
deriving DecidableEq

/-- The ambient libraries the program calls, abstracted: strconv.ParseFloat
(field parseFloat, with the float64 codomain abstracted to α), the HTTP
transport, the four json.Unmarshal instances at their fixed anonymous
struct schemas, and the Pushgateway push (some message = push error). -/
structure Env (α : Type) where
  parseFloat : String → Option α
  transport : HttpRequest → TransportOutcome
  decSpeed : String → Except String SpeedData
  decReward : String → Except String RewardData
  decHeight : String → Except String (List HeightItem)
  decBlock : String → Except String BlockData
  push : PushReq → Option String

/-- The program configuration set by the pflag flags. -/
structure Config where
  pushgatewayURL : String
  apiBaseURL : String
  addresses : List String
  interval : Nat

/-- Default of the --interval flag: 5 * time.Minute in nanoseconds. -/
def defaultDuration : Nat := 5 * 60 * 1000000000

def speedURL (cfg : Config) : String :=
  cfg.apiBaseURL ++ "/api/v1/provers/prover_speed_list"

def rewardURL (cfg : Config) : String :=
  cfg.apiBaseURL ++ "/api/v1/provers/prover_reward_list"

def heightURL (cfg : Config) : String :=
  cfg.apiBaseURL ++ "/api/v1/provers/prover_latest_height"

def blockURL (cfg : Config) : String :=
  cfg.apiBaseURL ++ "/api/v1/chain/latest_block"

/-- Body of the prover-speed request, built by fmt.Sprintf interpolation of
the raw address (no JSON escaping). -/
def speedBody (address : String) (duration : Nat) : String :=
  "\x7b\"address\":[\"" ++ address ++ "\"],\"duration\":" ++ toString duration ++ "\x7d"

/-- Body of the prover-reward and prover-latest-height requests; the same
fmt.Sprintf template appears verbatim in both functions. -/
def addressBody (address : String) : String :=
  "\x7b\"address\":[\"" ++ address ++ "\"]\x7d"

/-- The request fetchData constructs: POST with Content-Type
application/json. -/
def mkRequest (url body : String) : HttpRequest :=
  ⟨"POST", url, "application/json", body⟩

/-- Result of fetchData: the events it produced (the query, when the
request was actually sent) and the body bytes or the error. -/
structure FetchDataOut (α : Type) where
  trace : List (Ev α)
  res : Except Err String

/-- fetchData: builds the POST request, sends it, reads the whole body and
returns it.  The status code of a successful round trip is ignored. -/
def fetchData (env : Env α) (url body : String) : FetchDataOut α :=
  match env.transport (mkRequest url body) with
  | .createFail => ⟨[], .error .createErr⟩
  | .roundTripFail => ⟨[.query (mkRequest url body)], .error .sendErr⟩
  | .readFail => ⟨[.query (mkRequest url body)], .error .readErr⟩
  | .success _ data => ⟨[.query (mkRequest url body)], .ok data⟩

/-- Result of one fetch function: its events, the registry afterwards, the
Go return value, and whether MustRegister panicked. -/
structure FetchOut (α : Type) where
  trace : List (Ev α)
  reg : Reg
  result : Except Err Unit
  panicked : Bool

/-- The value push.New(...).Push() returns, as a Go error. -/
def pushOutcome (env : Env α) (p : PushReq) : Except Err Unit :=
  match env.push p with
  | none => .ok ()
  | some m => .error (.pushErr m)

def proverSpeedId (address durationName : String) : GaugeId :=
  ⟨"prover_speed", [("address", address), ("duration", durationName)]⟩

def totalSpeedId (durationName : String) : GaugeId :=
  ⟨"total_speed", [("duration", durationName)]⟩

def totalRewardId (address : String) : GaugeId :=
  ⟨"total_reward", [("address", address)]⟩

def proverHeightId (address : String) : GaugeId :=
  ⟨"prover_height", [("address", address)]⟩

def latestBlockHeightId : GaugeId := ⟨"latest_block_height", []⟩

def proofTargetId : GaugeId := ⟨"proof_target", []⟩

def coinbaseRewardId : GaugeId := ⟨"coinbase_reward", []⟩

/-- One iteration of the loop over result.Data.List in fetchProverSpeed:
parse the string speed; on failure log and skip, on success set the
gauge. -/
def speedItemEv (env : Env α) (g : GaugeId) (item : SpeedItem) : Ev α :=
  match env.parseFloat item.speed with
  | none => .logInvalid "speed" item.speed
  | some v => .gaugeSet g (.ofParsed v)

def speedLoop (env : Env α) (g : GaugeId) (l : List SpeedItem) : List (Ev α) :=
  l.map (speedItemEv env g)

/-- One iteration of the loop over result.Data.List in
fetchProverReward. -/
def rewardItemEv (env : Env α) (g : GaugeId) (item : RewardItem) : Ev α :=
  match env.parseFloat item.total_reward with
  | none => .logInvalid "total reward" item.total_reward
  | some v => .gaugeSet g (.ofParsed v)

def rewardLoop (env : Env α) (g : GaugeId) (l : List RewardItem) : List (Ev α) :=
  l.map (rewardItemEv env g)

/-- One iteration of the loop in fetchProverLatestHeight: the int height
is converted with float64(...) directly, no string parsing. -/
def heightItemEv (g : GaugeId) (item : HeightItem) : Ev α :=
  .gaugeSet g (.ofInt item.height)

def heightLoop (g : GaugeId) (l : List HeightItem) : List (Ev α) :=
  l.map (heightItemEv g)

/-- fetchProverSpeed: query the speed list for one address and duration,
register a fresh prover_speed gauge, set it per parsed list item, register
a fresh total_speed gauge, parse the total (returning nil without pushing
on failure) and push both gauges under job prover_metrics. -/
def fetchProverSpeed (cfg : Config) (env : Env α) (reg : Reg)
    (address : String) (duration : Nat) (durationName : String) : FetchOut α :=
  let fd := fetchData env (speedURL cfg) (speedBody address duration)
  match fd.res with
  | .error e => ⟨fd.trace, reg, .error e, false⟩
  | .ok data =>
    match env.decSpeed data with
    | .error msg => ⟨fd.trace, reg, .error (.decodeErr msg), false⟩
    | .ok r =>
      let g1 := proverSpeedId address durationName
      match mustRegister reg g1 with
      | none => ⟨fd.trace, reg, .ok (), true⟩
      | some reg1 =>
        let loopTr := speedLoop env g1 r.list
        let g2 := totalSpeedId durationName
        match mustRegister reg1 g2 with
        | none => ⟨fd.trace ++ loopTr, reg1, .ok (), true⟩
        | some reg2 =>
          match env.parseFloat r.total with
          | none =>
            ⟨fd.trace ++ loopTr ++ [.logInvalid "total speed" r.total], reg2, .ok (), false⟩
          | some tv =>
            let p : PushReq := ⟨cfg.pushgatewayURL, "prover_metrics", [g1, g2]⟩
            ⟨fd.trace ++ loopTr ++ [.gaugeSet g2 (.ofParsed tv), .pushEv p],
             reg2, pushOutcome env p, false⟩

/-- fetchProverReward: query the reward list for one address, register a
fresh total_reward gauge, set it per parsed list item and push it under
job prover_metrics (the push happens whether or not items parsed). -/
def fetchProverReward (cfg : Config) (env : Env α) (reg : Reg)
    (address : String) : FetchOut α :=
  let fd := fetchData env (rewardURL cfg) (addressBody address)
  match fd.res with
  | .error e => ⟨fd.trace, reg, .error e, false⟩
  | .ok data =>
    match env.decReward data with
    | .error msg => ⟨fd.trace, reg, .error (.decodeErr msg), false⟩
    | .ok r =>
      let g := totalRewardId address
      match mustRegister reg g with
      | none => ⟨fd.trace, reg, .ok (), true⟩
      | some reg1 =>
        let p : PushReq := ⟨cfg.pushgatewayURL, "prover_metrics", [g]⟩
        ⟨fd.trace ++ rewardLoop env g r.list ++ [.pushEv p], reg1, pushOutcome env p, false⟩

/-- fetchProverLatestHeight: query the latest height for one address,
register a fresh prover_height gauge, set it to float64(height) per item
and push it under job prover_metrics. -/
def fetchProverLatestHeight (cfg : Config) (env : Env α) (reg : Reg)
    (address : String) : FetchOut α :=
  let fd := fetchData env (heightURL cfg) (addressBody address)
  match fd.res with
  | .error e => ⟨fd.trace, reg, .error e, false⟩
  | .ok data =>
    match env.decHeight data with
    | .error msg => ⟨fd.trace, reg, .error (.decodeErr msg), false⟩
    | .ok items =>
      let g := proverHeightId address
      match mustRegister reg g with
      | none => ⟨fd.trace, reg, .ok (), true⟩
      | some reg1 =>
        let p : PushReq := ⟨cfg.pushgatewayURL, "prover_metrics", [g]⟩
        ⟨fd.trace ++ heightLoop g items ++ [.pushEv p], reg1, pushOutcome env p, false⟩

/-- fetchLatestBlock: query the latest block with an empty body, register
and set latest_block_height from the int height, register proof_target and
coinbase_reward, parse their string values (returning nil without pushing
on the first failure) and push all three under job latest_block_metrics. -/
def fetchLatestBlock (cfg : Config) (env : Env α) (reg : Reg) : FetchOut α :=
  let fd := fetchData env (blockURL cfg) ""
  match fd.res with
  | .error e => ⟨fd.trace, reg, .error e, false⟩
  | .ok data =>
    match env.decBlock data with
    | .error msg => ⟨fd.trace, reg, .error (.decodeErr msg), false⟩
    | .ok r =>
      match mustRegister reg latestBlockHeightId with
      | none => ⟨fd.trace, reg, .ok (), true⟩
      | some reg1 =>
        let trH : List (Ev α) := [.gaugeSet latestBlockHeightId (.ofInt r.height)]
        match mustRegister reg1 proofTargetId with
        | none => ⟨fd.trace ++ trH, reg1, .ok (), true⟩
        | some reg2 =>
          match env.parseFloat r.proof_target with
          | none =>
            ⟨fd.trace ++ trH ++ [.logInvalid "proof target" r.proof_target], reg2, .ok (), false⟩
          | some pv =>
            let trP : List (Ev α) := [.gaugeSet proofTargetId (.ofParsed pv)]
            match mustRegister reg2 coinbaseRewardId with
            | none => ⟨fd.trace ++ trH ++ trP, reg2, .ok (), true⟩
            | some reg3 =>
              match env.parseFloat r.coinbase_reward with
              | none =>
                ⟨fd.trace ++ trH ++ trP ++ [.logInvalid "coinbase reward" r.coinbase_reward],
                 reg3, .ok (), false⟩
              | some cv =>
                let p : PushReq :=
                  ⟨cfg.pushgatewayURL, "latest_block_metrics",
                   [latestBlockHeightId, proofTargetId, coinbaseRewardId]⟩
                ⟨fd.trace ++ trH ++ trP ++ [.gaugeSet coinbaseRewardId (.ofParsed cv), .pushEv p],
                 reg3, pushOutcome env p, false⟩

/-- The durations map of fetchDataAndPush, in source (insertion) order.
Go iterates maps in unspecified order; the properties proved below about
this list (counts, membership) do not depend on the order chosen. -/
def durationsList : List (String × Nat) :=
  [("15m", 900), ("1h", 3600), ("12h", 43200), ("24h", 86400)]

/-- Result of a loop or of a whole cycle: events, registry, panic flag. -/
structure RunOut (α : Type) where
  trace : List (Ev α)
  reg : Reg
  panicked : Bool
deriving DecidableEq

/-- Sequencing under panic: a MustRegister panic kills the process, so
nothing after it runs. -/
def seqRun (a : RunOut α) (f : Reg → RunOut α) : RunOut α :=
  if a.panicked then a else
    let b := f a.reg
    ⟨a.trace ++ b.trace, b.reg, b.panicked⟩

/-- A fetch function's contribution to the cycle: its Go error value is
only logged by fetchDataAndPush and does not affect control flow. -/
def toRun (o : FetchOut α) : RunOut α := ⟨o.trace, o.reg, o.panicked⟩

/-- The inner loop of fetchDataAndPush over the durations map for one
address. -/
def durLoop (cfg : Config) (env : Env α) (address : String) :
    List (String × Nat) → Reg → RunOut α
  | [], reg => ⟨[], reg, false⟩
  | (dn, d) :: rest, reg =>
    seqRun (toRun (fetchProverSpeed cfg env reg address d dn)) fun r =>
      durLoop cfg env address rest r

/-- The outer loop of fetchDataAndPush over the configured addresses. -/
def addrLoop (cfg : Config) (env : Env α) :
    List String → Reg → RunOut α
  | [], reg => ⟨[], reg, false⟩
  | a :: rest, reg =>
    seqRun (durLoop cfg env a durationsList reg) fun r1 =>
    seqRun (toRun (fetchProverReward cfg env r1 a)) fun r2 =>
    seqRun (toRun (fetchProverLatestHeight cfg env r2 a)) fun r3 =>
      addrLoop cfg env rest r3

/-- One fetch-and-push cycle: all addresses, then the latest block. -/
def fetchDataAndPush (cfg : Config) (env : Env α) (reg : Reg) : RunOut α :=
  seqRun (addrLoop cfg env cfg.addresses reg) fun r =>
    toRun (fetchLatestBlock cfg env r)

/-- n consecutive cycles against the same environment (the responses are
identical in every cycle), threading the Prometheus registry. -/
def runCycles (cfg : Config) (env : Env α) : Nat → Reg → RunOut α
  | 0, reg => ⟨[], reg, false⟩
  | n + 1, reg => seqRun (fetchDataAndPush cfg env reg) fun r => runCycles cfg env n r

/-- The registry after n completed cycles of a run started fresh. -/
def regAfter (cfg : Config) (env : Env α) : Nat → Reg
  | 0 => []
  | n + 1 => (fetchDataAndPush cfg env (regAfter cfg env n)).reg

/-- The (n+1)-th cycle of a run started fresh. -/
def nthCycle (cfg : Config) (env : Env α) (n : Nat) : RunOut α :=
  fetchDataAndPush cfg env (regAfter cfg env n)

/-- Result of main: the fatal log message if any, and the run. -/
structure MainOut (α : Type) where
  fatal : Option String
  run : RunOut α

/-- main: with no addresses, log.Fatal exits before any request or push;
otherwise one immediate cycle followed by one cycle per ticker tick. -/
def mainProg (cfg : Config) (env : Env α) (ticks : Nat) : MainOut α :=
  if cfg.addresses = [] then ⟨some "No addresses provided", ⟨[], [], false⟩⟩
  else ⟨none, runCycles cfg env (ticks + 1) []⟩

/-- The HTTP requests occurring in a trace. -/
def queriesOf (tr : List (Ev α)) : List HttpRequest :=
  tr.filterMap fun ev => match ev with
    | .query r => some r
    | _ => none

/-- The gauge sets occurring in a trace, in order. -/
def setsOf (tr : List (Ev α)) : List (GaugeId × GVal α) :=
  tr.filterMap fun ev => match ev with
    | .gaugeSet g v => some (g, v)
    | _ => none

/-- The pushes occurring in a trace, in order. -/
def pushesOf (tr : List (Ev α)) : List PushReq :=
  tr.filterMap fun ev => match ev with
    | .pushEv p => some p
    | _ => none

/-! Concrete instances used to evaluate the model on closed inputs.  The
abstract float type is instantiated with Nat and parseFloat with
String.toNat?: all that matters for the program logic is which strings
parse and which do not. -/

/-- A configuration with a single monitored address. -/
def cfgW : Config := ⟨"http://pg:9091", "http://api:8088", ["a"], defaultDuration⟩

/-- A configuration with two monitored addresses. -/
def cfgW2 : Config := ⟨"http://pg:9091", "http://api:8088", ["a", "b"], defaultDuration⟩

/-- A configuration with an empty address list. -/
def cfgEmpty : Config := ⟨"http://pg:9091", "http://api:8088", [], defaultDuration⟩

/-- Decimal parser on the raw character list, used to instantiate the
abstract parseFloat in concrete evaluations (kernel-reducible, unlike
String.toNat?). -/
def simpleParse (s : String) : Option Nat :=
  if s.data ≠ [] ∧ s.data.all (fun c => c.isDigit) then
    some (s.data.foldl (fun n c => 10 * n + (c.toNat - 48)) 0)
  else none

/-- An environment in which every request succeeds and every response
decodes; the speed list contains one unparsable entry "x". -/
def envW : Env Nat :=
  ⟨simpleParse,
   fun _ => .success 200 "resp",
   fun _ => .ok ⟨[⟨"a", "1"⟩, ⟨"a", "x"⟩, ⟨"a", "2"⟩], "7"⟩,
   fun _ => .ok ⟨[⟨"a", "5"⟩], "9"⟩,
   fun _ => .ok [⟨"a", 10⟩],
   fun _ => .ok ⟨100, "3", "4"⟩,
   fun _ => none⟩

/-- An environment in which every round trip fails at the transport. -/
def envFailNet : Env Nat := { envW with transport := fun _ => .roundTripFail }

/-- Like envW but the speed response's total field does not parse. -/
def envBadTotal : Env Nat :=
  { envW with decSpeed := fun _ => .ok ⟨[⟨"a", "1"⟩], "x"⟩ }

/-! JSON model for the request-body claims: the JSON-spec escaping rules,
Go's json.Marshal escaping (which additionally escapes the HTML characters
and the line separators), and a canonical renderer defining
well-formedness of the bodies the program interpolates. -/

/-- A character that cannot appear raw in a JSON string literal and hence
requires escaping: quote, backslash, or a control character. -/
def needsJsonEscape (c : Char) : Bool :=
  c = '"' || c = '\\' || c.toNat < 32

/-- No character of the string requires JSON string escaping. -/
def jsonCleanString (s : String) : Bool :=
  s.data.all fun c => !(needsJsonEscape c)

/-- Lowercase hex digit, as Go's JSON encoder writes in \u00xx forms. -/
def hexDigitChar (n : Nat) : Char :=
  if n < 10 then Char.ofNat (48 + n) else Char.ofNat (87 + n)

/-- Minimal (JSON-specification) escaping of one character. -/
def minEscapeChar (c : Char) : List Char :=
  if c = '"' then ['\\', '"']
  else if c = '\\' then ['\\', '\\']
  else if c.toNat < 32 then
    ['\\', 'u', '0', '0', hexDigitChar (c.toNat / 16), hexDigitChar (c.toNat % 16)]
  else [c]

/-- Minimal escaping of a string (contents of a JSON string literal). -/
def minEscape (s : String) : String := ⟨s.data.flatMap minEscapeChar⟩

/-- A character Go's json.Marshal does not copy verbatim into a string
literal: the JSON-escaping set plus the HTML characters and the Unicode
line separators. -/
def goNeedsChange (c : Char) : Bool :=
  c = '"' || c = '\\' || c.toNat < 32 || c = '<' || c = '>' || c = '&' ||
    c.toNat = 8232 || c.toNat = 8233

/-- json.Marshal copies every character of the string verbatim. -/
def goCleanString (s : String) : Bool :=
  s.data.all fun c => !(goNeedsChange c)

/-- Escaping of one character as performed by Go's json.Marshal with its
default HTML escaping. -/
def goEscapeChar (c : Char) : List Char :=
  if c = '"' then ['\\', '"']
  else if c = '\\' then ['\\', '\\']
  else if c = '\n' then ['\\', 'n']
  else if c = '\r' then ['\\', 'r']
  else if c = '\t' then ['\\', 't']
  else if c = '<' then ['\\', 'u', '0', '0', '3', 'c']
  else if c = '>' then ['\\', 'u', '0', '0', '3', 'e']
  else if c = '&' then ['\\', 'u', '0', '0', '2', '6']
  else if c.toNat < 32 then
    ['\\', 'u', '0', '0', hexDigitChar (c.toNat / 16), hexDigitChar (c.toNat % 16)]
  else if c.toNat = 8232 then ['\\', 'u', '2', '0', '2', '8']
  else if c.toNat = 8233 then ['\\', 'u', '2', '0', '2', '9']
  else [c]

/-- Go json.Marshal escaping of a whole string. -/
def goEscape (s : String) : String := ⟨s.data.flatMap goEscapeChar⟩

/-- The elements of json.Marshal of a []string, comma separated. -/
def jsonStringItems : List String → String
  | [] => ""
  | [s] => "\"" ++ goEscape s ++ "\""
  | s :: t :: rest => "\"" ++ goEscape s ++ "\"" ++ "," ++ jsonStringItems (t :: rest)

/-- toJSON on a []string value: json.Marshal with default escaping. -/
def toJSON (xs : List String) : String := "[" ++ jsonStringItems xs ++ "]"

/-- The canonical encoding of the speed request payload, i.e. the body the
program would produce had it serialized the payload with toJSON. -/
def canonicalSpeedBody (address : String) (duration : Nat) : String :=
  "\x7b\"address\":" ++ toJSON [address] ++ ",\"duration\":" ++ toString duration ++ "\x7d"

/-- The canonical encoding of the reward/height request payload. -/
def canonicalAddressBody (address : String) : String :=
  "\x7b\"address\":" ++ toJSON [address] ++ "\x7d"

/-- JSON values (numbers restricted to naturals, which is all the bodies
at hand contain). -/
inductive JsonVal where
  | str : String → JsonVal
  | num : Nat → JsonVal
  | arr : List JsonVal → JsonVal
  | obj : List (String × JsonVal) → JsonVal

mutual

/-- Whitespace-free rendering of a JSON value with minimal escaping. -/
def render : JsonVal → String
  | .str s => "\"" ++ minEscape s ++ "\""
  | .num n => toString n
  | .arr vs => "[" ++ renderItems vs ++ "]"
  | .obj ms => "\x7b" ++ renderMembers ms ++ "\x7d"

/-- Comma-separated rendering of array elements. -/
def renderItems : List JsonVal → String
  | [] => ""
  | [v] => render v
  | v :: w :: vs => render v ++ "," ++ renderItems (w :: vs)

/-- Comma-separated rendering of object members. -/
def renderMembers : List (String × JsonVal) → String
  | [] => ""
  | [(k, v)] => "\"" ++ minEscape k ++ "\":" ++ render v
  | (k, v) :: m :: ms => "\"" ++ minEscape k ++ "\":" ++ render v ++ "," ++ renderMembers (m :: ms)

end

/-- A string is well-formed JSON when it is the rendering of some JSON
value (the bodies under study contain no whitespace, so the whitespace-free
renderer is the right notion). -/
def WellFormedJson (s : String) : Prop := ∃ v, render v = s

/-- Like envW but the transport reports a 404 status (whose body is still
returned unchanged, since fetchData never looks at the status). -/
def env404 : Env Nat := { envW with transport := fun _ => .success 404 "notfound" }

/-- The shape every HTTP query of the program has: a POST with JSON
content type to one of the four fixed endpoint paths, carrying the body
template of that endpoint built from a configured address and (for the
speed endpoint) one of the four durations. -/
def goodQuery (cfg : Config) (req : HttpRequest) : Prop :=
  req.method = "POST" ∧ req.contentType = "application/json" ∧
  ((∃ a d dn, a ∈ cfg.addresses ∧ (dn, d) ∈ durationsList ∧
      req = mkRequest (speedURL cfg) (speedBody a d)) ∨
   (∃ a, a ∈ cfg.addresses ∧ req = mkRequest (rewardURL cfg) (addressBody a)) ∨
   (∃ a, a ∈ cfg.addresses ∧ req = mkRequest (heightURL cfg) (addressBody a)) ∨
   req = mkRequest (blockURL cfg) "")

/-! Helper lemmas about escaping. -/

theorem flatMap_id_of_all {f : Char → List Char} :
    ∀ l : List Char, (∀ c ∈ l, f c = [c]) → l.flatMap f = l := by
  intro l h
  induction l with
  | nil => rfl
  | cons c rest ih =>
    simp only [List.flatMap_cons]
    rw [h c (List.mem_cons_self c rest), ih fun x hx => h x (List.mem_cons_of_mem c hx)]
    rfl

theorem minEscapeChar_of_clean {c : Char} (h : needsJsonEscape c = false) :
    minEscapeChar c = [c] := by
  simp only [needsJsonEscape, Bool.or_eq_false_iff, decide_eq_false_iff_not] at h
  obtain ⟨⟨h1, h2⟩, h3⟩ := h
  simp [minEscapeChar, h1, h2, h3]

theorem minEscape_data_of_clean {s : String} (h : jsonCleanString s = true) :
    s.data.flatMap minEscapeChar = s.data := by
  apply flatMap_id_of_all
  intro c hc
  simp only [jsonCleanString, List.all_eq_true] at h
  exact minEscapeChar_of_clean (by simpa using h c hc)

theorem minEscape_of_clean {s : String} (h : jsonCleanString s = true) :
    minEscape s = s :=
  String.ext (minEscape_data_of_clean h)

theorem goEscapeChar_of_clean {c : Char} (h : goNeedsChange c = false) :
    goEscapeChar c = [c] := by
  simp only [goNeedsChange, Bool.or_eq_false_iff, decide_eq_false_iff_not] at h
  obtain ⟨⟨⟨⟨⟨⟨⟨h1, h2⟩, h3⟩, h4⟩, h5⟩, h6⟩, h7⟩, h8⟩ := h
  have hn : c ≠ '\n' := fun hc => h3 (by subst hc; decide)
  have hr : c ≠ '\r' := fun hc => h3 (by subst hc; decide)
  have ht : c ≠ '\t' := fun hc => h3 (by subst hc; decide)
  simp [goEscapeChar, h1, h2, h3, h4, h5, h6, h7, h8, hn, hr, ht]

theorem goEscape_data_of_clean {s : String} (h : goCleanString s = true) :
    s.data.flatMap goEscapeChar = s.data := by
  apply flatMap_id_of_all
  intro c hc
  simp only [goCleanString, List.all_eq_true] at h
  exact goEscapeChar_of_clean (by simpa using h c hc)

theorem goEscape_of_clean {s : String} (h : goCleanString s = true) :
    goEscape s = s :=
  String.ext (goEscape_data_of_clean h)

theorem speedBody_renders {a : String} (d : Nat) (h : jsonCleanString a = true) :
    render (.obj [("address", .arr [.str a]), ("duration", .num d)]) = speedBody a d := by
  apply String.ext
  simp [render, renderItems, renderMembers, speedBody, String.data_append, minEscape,
    minEscape_data_of_clean h, minEscapeChar, hexDigitChar]

theorem addressBody_renders {a : String} (h : jsonCleanString a = true) :
    render (.obj [("address", .arr [.str a])]) = addressBody a := by
  apply String.ext
  simp [render, renderItems, renderMembers, addressBody, String.data_append, minEscape,
    minEscape_data_of_clean h, minEscapeChar, hexDigitChar]

theorem speedBody_canonical {a : String} (d : Nat) (h : goCleanString a = true) :
    speedBody a d = canonicalSpeedBody a d := by
  apply String.ext
  simp [speedBody, canonicalSpeedBody, toJSON, jsonStringItems, goEscape_of_clean h,
    String.data_append]

theorem addressBody_canonical {a : String} (h : goCleanString a = true) :
    addressBody a = canonicalAddressBody a := by
  apply String.ext
  simp [addressBody, canonicalAddressBody, toJSON, jsonStringItems, goEscape_of_clean h,
    String.data_append]

/-! Trace extraction helper lemmas. -/


theorem queriesOf_append (t1 t2 : List (Ev α)) :
    queriesOf (t1 ++ t2) = queriesOf t1 ++ queriesOf t2 :=
  List.filterMap_append t1 t2 _

theorem setsOf_append (t1 t2 : List (Ev α)) :
    setsOf (t1 ++ t2) = setsOf t1 ++ setsOf t2 :=
  List.filterMap_append t1 t2 _

theorem pushesOf_append (t1 t2 : List (Ev α)) :
    pushesOf (t1 ++ t2) = pushesOf t1 ++ pushesOf t2 :=
  List.filterMap_append t1 t2 _

theorem setsOf_speedLoop (env : Env α) (g : GaugeId) (l : List SpeedItem) :
    setsOf (speedLoop env g l) =
      l.filterMap fun it => (env.parseFloat it.speed).map fun v => (g, GVal.ofParsed v) := by
  induction l with
  | nil => rfl
  | cons it rest ih =>
    simp only [speedLoop, List.map_cons, List.filterMap_cons] at ih ⊢
    cases h : env.parseFloat it.speed <;>
      simp [setsOf, List.filterMap_cons, speedItemEv, h, ← ih, speedLoop]

theorem setsOf_rewardLoop (env : Env α) (g : GaugeId) (l : List RewardItem) :
    setsOf (rewardLoop env g l) =
      l.filterMap fun it => (env.parseFloat it.total_reward).map fun v => (g, GVal.ofParsed v) := by
  induction l with
  | nil => rfl
  | cons it rest ih =>
    simp only [rewardLoop, List.map_cons, List.filterMap_cons] at ih ⊢
    cases h : env.parseFloat it.total_reward <;>
      simp [setsOf, List.filterMap_cons, rewardItemEv, h, ← ih, rewardLoop]

theorem setsOf_heightLoop (g : GaugeId) (l : List HeightItem) :
    setsOf (heightLoop (α := α) g l) = l.map fun it => (g, GVal.ofInt it.height) := by
  induction l with
  | nil => rfl
  | cons it rest ih =>
    simp [heightLoop, setsOf, List.filterMap_cons, heightItemEv, ← ih]

theorem queriesOf_speedLoop (env : Env α) (g : GaugeId) (l : List SpeedItem) :
    queriesOf (speedLoop env g l) = [] := by
  induction l with
  | nil => rfl
  | cons it rest ih =>
    cases h : env.parseFloat it.speed <;>
      simp [queriesOf, speedLoop, List.filterMap_cons, speedItemEv, h] <;>
      simpa [queriesOf, speedLoop] using ih

theorem queriesOf_rewardLoop (env : Env α) (g : GaugeId) (l : List RewardItem) :
    queriesOf (rewardLoop env g l) = [] := by
  induction l with
  | nil => rfl
  | cons it rest ih =>
    cases h : env.parseFloat it.total_reward <;>
      simp [queriesOf, rewardLoop, List.filterMap_cons, rewardItemEv, h] <;>
      simpa [queriesOf, rewardLoop] using ih

theorem queriesOf_heightLoop (g : GaugeId) (l : List HeightItem) :
    queriesOf (heightLoop (α := α) g l) = [] := by
  induction l with
  | nil => rfl
  | cons it rest ih =>
    simp [queriesOf, heightLoop, List.filterMap_cons, heightItemEv]

theorem setsOf_nil : setsOf ([] : List (Ev α)) = [] := rfl

theorem setsOf_cons_query (r : HttpRequest) (t : List (Ev α)) :
    setsOf (.query r :: t) = setsOf t := rfl

theorem setsOf_cons_log (f v : String) (t : List (Ev α)) :
    setsOf (.logInvalid f v :: t) = setsOf t := rfl

theorem setsOf_cons_push (p : PushReq) (t : List (Ev α)) :
    setsOf (.pushEv p :: t) = setsOf t := rfl

theorem setsOf_cons_set (g : GaugeId) (v : GVal α) (t : List (Ev α)) :
    setsOf (.gaugeSet g v :: t) = (g, v) :: setsOf t := rfl

theorem queriesOf_nil : queriesOf ([] : List (Ev α)) = [] := rfl

theorem queriesOf_cons_query (r : HttpRequest) (t : List (Ev α)) :
    queriesOf (.query r :: t) = r :: queriesOf t := rfl

theorem queriesOf_cons_log (f v : String) (t : List (Ev α)) :
    queriesOf (.logInvalid f v :: t) = queriesOf t := rfl

theorem queriesOf_cons_push (p : PushReq) (t : List (Ev α)) :
    queriesOf (.pushEv p :: t) = queriesOf t := rfl

theorem queriesOf_cons_set (g : GaugeId) (v : GVal α) (t : List (Ev α)) :
    queriesOf (.gaugeSet g v :: t) = queriesOf t := rfl

theorem pushesOf_nil : pushesOf ([] : List (Ev α)) = [] := rfl

theorem pushesOf_cons_query (r : HttpRequest) (t : List (Ev α)) :
    pushesOf (.query r :: t) = pushesOf t := rfl

theorem pushesOf_cons_log (f v : String) (t : List (Ev α)) :
    pushesOf (.logInvalid f v :: t) = pushesOf t := rfl

theorem pushesOf_cons_push (p : PushReq) (t : List (Ev α)) :
    pushesOf (.pushEv p :: t) = p :: pushesOf t := rfl

theorem pushesOf_cons_set (g : GaugeId) (v : GVal α) (t : List (Ev α)) :
    pushesOf (.gaugeSet g v :: t) = pushesOf t := rfl

/-! Helper lemmas for the query-shape claim, and the claim theorems. -/

theorem pushOutcome_ok_or_pushErr (env : Env α) (p : PushReq) :
    pushOutcome env p = .ok () ∨ ∃ m, pushOutcome env p = .error (.pushErr m) := by
  unfold pushOutcome
  cases env.push p <;> simp

theorem mem_queriesOf_fetchData {req : HttpRequest} (env : Env α) (u b : String)
    (hm : req ∈ queriesOf (fetchData env u b).trace) : req = mkRequest u b := by
  cases h : env.transport (mkRequest u b) <;>
    simp [fetchData, h, queriesOf_nil, queriesOf_cons_query] at hm <;>
    exact hm

theorem queriesOf_fetchProverSpeed (cfg : Config) (env : Env α) (reg : Reg)
    (a : String) (d : Nat) (dn : String) :
    queriesOf (fetchProverSpeed cfg env reg a d dn).trace =
      queriesOf (fetchData env (speedURL cfg) (speedBody a d)).trace := by
  simp only [fetchProverSpeed]
  repeat' split
  all_goals first
    | rfl
    | simp [queriesOf_append, queriesOf_speedLoop, queriesOf_nil, queriesOf_cons_log,
        queriesOf_cons_set, queriesOf_cons_push]

theorem queriesOf_fetchProverReward (cfg : Config) (env : Env α) (reg : Reg)
    (a : String) :
    queriesOf (fetchProverReward cfg env reg a).trace =
      queriesOf (fetchData env (rewardURL cfg) (addressBody a)).trace := by
  simp only [fetchProverReward]
  repeat' split
  all_goals first
    | rfl
    | simp [queriesOf_append, queriesOf_rewardLoop, queriesOf_nil, queriesOf_cons_log,
        queriesOf_cons_set, queriesOf_cons_push]

theorem queriesOf_fetchProverLatestHeight (cfg : Config) (env : Env α) (reg : Reg)
    (a : String) :
    queriesOf (fetchProverLatestHeight cfg env reg a).trace =
      queriesOf (fetchData env (heightURL cfg) (addressBody a)).trace := by
  simp only [fetchProverLatestHeight]
  repeat' split
  all_goals first
    | rfl
    | simp [queriesOf_append, queriesOf_heightLoop, queriesOf_nil, queriesOf_cons_log,
        queriesOf_cons_set, queriesOf_cons_push]

theorem queriesOf_fetchLatestBlock (cfg : Config) (env : Env α) (reg : Reg) :
    queriesOf (fetchLatestBlock cfg env reg).trace =
      queriesOf (fetchData env (blockURL cfg) "").trace := by
  simp only [fetchLatestBlock]
  repeat' split
  all_goals first
    | rfl
    | simp [queriesOf_append, queriesOf_nil, queriesOf_cons_log,
        queriesOf_cons_set, queriesOf_cons_push]

theorem mem_queriesOf_seqRun {req : HttpRequest} {a : RunOut α} {f : Reg → RunOut α}
    (hm : req ∈ queriesOf (seqRun a f).trace) :
    req ∈ queriesOf a.trace ∨ req ∈ queriesOf (f a.reg).trace := by
  unfold seqRun at hm
  split at hm
  · exact Or.inl hm
  · rw [queriesOf_append, List.mem_append] at hm
    exact hm

theorem mem_queriesOf_durLoop {req : HttpRequest} (cfg : Config) (env : Env α)
    (a : String) :
    ∀ (l : List (String × Nat)) (reg : Reg),
      req ∈ queriesOf (durLoop cfg env a l reg).trace →
      ∃ dn d, (dn, d) ∈ l ∧ req = mkRequest (speedURL cfg) (speedBody a d) := by
  intro l
  induction l with
  | nil =>
    intro reg hm
    simp [durLoop, queriesOf_nil] at hm
  | cons p rest ih =>
    intro reg hm
    obtain ⟨dn, d⟩ := p
    simp only [durLoop, toRun] at hm
    rcases mem_queriesOf_seqRun hm with h | h
    · rw [queriesOf_fetchProverSpeed] at h
      exact ⟨dn, d, by simp, mem_queriesOf_fetchData env _ _ h⟩
    · obtain ⟨dn1, d1, hmem, heq⟩ := ih _ h
      exact ⟨dn1, d1, by simp [hmem], heq⟩

theorem mem_queriesOf_addrLoop {req : HttpRequest} (cfg : Config) (env : Env α) :
    ∀ (l : List String) (reg : Reg), (∀ x ∈ l, x ∈ cfg.addresses) →
      req ∈ queriesOf (addrLoop cfg env l reg).trace → goodQuery cfg req := by
  intro l
  induction l with
  | nil =>
    intro reg _ hm
    simp [addrLoop, queriesOf_nil] at hm
  | cons a rest ih =>
    intro reg hl hm
    have ha : a ∈ cfg.addresses := hl a (List.mem_cons_self a rest)
    simp only [addrLoop, toRun] at hm
    rcases mem_queriesOf_seqRun hm with h | h
    · obtain ⟨dn, d, hmem, heq⟩ := mem_queriesOf_durLoop cfg env a _ _ h
      exact ⟨by rw [heq]; rfl, by rw [heq]; rfl, Or.inl ⟨a, d, dn, ha, hmem, heq⟩⟩
    · rcases mem_queriesOf_seqRun h with h2 | h2
      · rw [queriesOf_fetchProverReward] at h2
        have heq := mem_queriesOf_fetchData env _ _ h2
        exact ⟨by rw [heq]; rfl, by rw [heq]; rfl, Or.inr (Or.inl ⟨a, ha, heq⟩)⟩
      · rcases mem_queriesOf_seqRun h2 with h3 | h3
        · rw [queriesOf_fetchProverLatestHeight] at h3
          have heq := mem_queriesOf_fetchData env _ _ h3
          exact ⟨by rw [heq]; rfl, by rw [heq]; rfl, Or.inr (Or.inr (Or.inl ⟨a, ha, heq⟩))⟩
        · exact ih _ (fun x hx => hl x (List.mem_cons_of_mem a hx)) h3

theorem mem_queriesOf_cycle {req : HttpRequest} (cfg : Config) (env : Env α)
    (reg : Reg) (hm : req ∈ queriesOf (fetchDataAndPush cfg env reg).trace) :
    goodQuery cfg req := by
  simp only [fetchDataAndPush, toRun] at hm
  rcases mem_queriesOf_seqRun hm with h | h
  · exact mem_queriesOf_addrLoop cfg env _ _ (fun x hx => hx) h
  · rw [queriesOf_fetchLatestBlock] at h
    have heq := mem_queriesOf_fetchData env _ _ h
    exact ⟨by rw [heq]; rfl, by rw [heq]; rfl, Or.inr (Or.inr (Or.inr heq))⟩

theorem mem_queriesOf_runCycles {req : HttpRequest} (cfg : Config) (env : Env α) :
    ∀ (n : Nat) (reg : Reg), req ∈ queriesOf (runCycles cfg env n reg).trace →
      goodQuery cfg req := by
  intro n
  induction n with
  | zero =>
    intro reg hm
    simp [runCycles, queriesOf_nil] at hm
  | succ n ih =>
    intro reg hm
    simp only [runCycles] at hm
    rcases mem_queriesOf_seqRun hm with h | h
    · exact mem_queriesOf_cycle cfg env reg h
    · exact ih _ h

/-- Claim C1 (code_bug evidence): the claim says every cycle after the
first repeats the same fetch-and-push cycle and no cycle aborts the
process.  On the code this fails: with one address and responses that
decode, the first cycle completes without panic, but the second cycle hits
the duplicate prometheus.MustRegister of prover_speed and panics after
issuing a single query. -/
theorem c1_second_cycle_aborts :
    (runCycles cfgW envW 1 []).panicked = false ∧
    (runCycles cfgW envW 2 []).panicked = true ∧
    (queriesOf (nthCycle cfgW envW 1).trace).length = 1 := by
  decide

/-- Claim C2 (code_bug evidence): with a single address, a fresh cycle
does issue exactly the claimed queries in order: one speed query per
duration 15m/1h/12h/24h (seconds 900/3600/43200/86400), one reward and one
height query for the address, then exactly one latest-block query.  With
two addresses the claim fails on the code: the cycle panics at the
duplicate total_speed registration while processing the second address, so
only 7 of the claimed 13 queries are issued. -/
theorem c2_cycle_query_counts :
    queriesOf (fetchDataAndPush cfgW envW []).trace =
      [mkRequest (speedURL cfgW) (speedBody "a" 900),
       mkRequest (speedURL cfgW) (speedBody "a" 3600),
       mkRequest (speedURL cfgW) (speedBody "a" 43200),
       mkRequest (speedURL cfgW) (speedBody "a" 86400),
       mkRequest (rewardURL cfgW) (addressBody "a"),
       mkRequest (heightURL cfgW) (addressBody "a"),
       mkRequest (blockURL cfgW) ""] ∧
    (fetchDataAndPush cfgW2 envW []).panicked = true ∧
    (queriesOf (fetchDataAndPush cfgW2 envW []).trace).length = 7 := by
  refine ⟨by decide, by decide, by decide⟩

/-- Claim C3: every string-typed numeric field consumed (per-address
speed, total speed, per-address total reward, proof target, coinbase
reward) reaches its gauge as exactly the value parseFloat returned for
that string, and parse failures produce no gauge set; the integer-typed
height fields (prover height, latest block height) are set via direct
float64 conversion without string parsing. -/
theorem c3_parse_dataflow {α : Type} (cfg : Config) (env : Env α) (a : String)
    (d : Nat) (dn : String)
    (st1 : Nat) (b1 : String) (r1 : SpeedData)
    (st2 : Nat) (b2 : String) (r2 : RewardData)
    (st3 : Nat) (b3 : String) (items : List HeightItem)
    (st4 : Nat) (b4 : String) (r4 : BlockData)
    (ht1 : env.transport (mkRequest (speedURL cfg) (speedBody a d)) = .success st1 b1)
    (hd1 : env.decSpeed b1 = .ok r1)
    (ht2 : env.transport (mkRequest (rewardURL cfg) (addressBody a)) = .success st2 b2)
    (hd2 : env.decReward b2 = .ok r2)
    (ht3 : env.transport (mkRequest (heightURL cfg) (addressBody a)) = .success st3 b3)
    (hd3 : env.decHeight b3 = .ok items)
    (ht4 : env.transport (mkRequest (blockURL cfg) "") = .success st4 b4)
    (hd4 : env.decBlock b4 = .ok r4) :
    setsOf (fetchProverSpeed cfg env [] a d dn).trace =
      (r1.list.filterMap fun it =>
        (env.parseFloat it.speed).map fun v => (proverSpeedId a dn, GVal.ofParsed v)) ++
      ((env.parseFloat r1.total).map fun v => (totalSpeedId dn, GVal.ofParsed v)).toList ∧
    setsOf (fetchProverReward cfg env [] a).trace =
      (r2.list.filterMap fun it =>
        (env.parseFloat it.total_reward).map fun v => (totalRewardId a, GVal.ofParsed v)) ∧
    setsOf (fetchProverLatestHeight cfg env [] a).trace =
      (items.map fun it => (proverHeightId a, GVal.ofInt it.height)) ∧
    setsOf (fetchLatestBlock cfg env []).trace =
      (latestBlockHeightId, GVal.ofInt r4.height) ::
        (match env.parseFloat r4.proof_target with
         | none => []
         | some pv =>
           (proofTargetId, GVal.ofParsed pv) ::
             (match env.parseFloat r4.coinbase_reward with
              | none => []
              | some cv => [(coinbaseRewardId, GVal.ofParsed cv)])) := by
  refine ⟨?_, ?_, ?_, ?_⟩
  · unfold fetchProverSpeed
    simp only [fetchData, ht1, hd1]
    simp only [mustRegister, proverSpeedId, totalSpeedId]
    cases hpt : env.parseFloat r1.total <;>
      simp [hpt, setsOf_append, setsOf_speedLoop, setsOf_nil, setsOf_cons_query,
        setsOf_cons_log, setsOf_cons_push, setsOf_cons_set, proverSpeedId, totalSpeedId]
  · unfold fetchProverReward
    simp only [fetchData, ht2, hd2]
    simp only [mustRegister, totalRewardId]
    simp [setsOf_append, setsOf_rewardLoop, setsOf_nil, setsOf_cons_query,
      setsOf_cons_log, setsOf_cons_push, setsOf_cons_set, totalRewardId]
  · unfold fetchProverLatestHeight
    simp only [fetchData, ht3, hd3]
    simp only [mustRegister, proverHeightId]
    simp [setsOf_append, setsOf_heightLoop, setsOf_nil, setsOf_cons_query,
      setsOf_cons_log, setsOf_cons_push, setsOf_cons_set, proverHeightId]
  · unfold fetchLatestBlock
    simp only [fetchData, ht4, hd4]
    simp only [mustRegister, latestBlockHeightId, proofTargetId, coinbaseRewardId]
    cases hpt : env.parseFloat r4.proof_target <;>
      cases hcr : env.parseFloat r4.coinbase_reward <;>
        simp [hpt, hcr, setsOf_append, setsOf_nil, setsOf_cons_query, setsOf_cons_log,
          setsOf_cons_push, setsOf_cons_set, latestBlockHeightId, proofTargetId,
          coinbaseRewardId]

/-- Claim C3 witness: the dataflow theorem evaluated in the concrete
environment envW, whose speed list is [1, unparsable, 2] and total is 7. -/
theorem c3_witness :
    setsOf (fetchProverSpeed cfgW envW [] "a" 900 "15m").trace =
      [(proverSpeedId "a" "15m", GVal.ofParsed 1), (proverSpeedId "a" "15m", GVal.ofParsed 2),
       (totalSpeedId "15m", GVal.ofParsed 7)] := by
  have h := (c3_parse_dataflow cfgW envW "a" 900 "15m"
    200 "resp" ⟨[⟨"a", "1"⟩, ⟨"a", "x"⟩, ⟨"a", "2"⟩], "7"⟩
    200 "resp" ⟨[⟨"a", "5"⟩], "9"⟩
    200 "resp" [⟨"a", 10⟩]
    200 "resp" ⟨100, "3", "4"⟩
    rfl rfl rfl rfl rfl rfl rfl rfl).1
  exact h.trans (by decide)

/-- Claim C4: parse failures are handled gracefully.  A list item whose
speed or total_reward fails to parse contributes exactly one log event and
no gauge set, while all items before and after it are still processed; and
after a successful fetch and decode, a fetch function's returned error can
only come from the Pushgateway push, never from a parse failure. -/
theorem c4_parse_failures_graceful {α : Type} :
    (∀ (env : Env α) (g : GaugeId) (xs : List SpeedItem) (item : SpeedItem)
       (ys : List SpeedItem), env.parseFloat item.speed = none →
       speedLoop env g (xs ++ item :: ys) =
         speedLoop env g xs ++ Ev.logInvalid "speed" item.speed :: speedLoop env g ys) ∧
    (∀ (env : Env α) (g : GaugeId) (xs : List RewardItem) (item : RewardItem)
       (ys : List RewardItem), env.parseFloat item.total_reward = none →
       rewardLoop env g (xs ++ item :: ys) =
         rewardLoop env g xs ++
           Ev.logInvalid "total reward" item.total_reward :: rewardLoop env g ys) ∧
    (∀ (cfg : Config) (env : Env α) (a : String) (d : Nat) (dn : String) (st : Nat)
       (b : String) (r : SpeedData),
       env.transport (mkRequest (speedURL cfg) (speedBody a d)) = .success st b →
       env.decSpeed b = .ok r →
       (fetchProverSpeed cfg env [] a d dn).result = .ok () ∨
         ∃ m, (fetchProverSpeed cfg env [] a d dn).result = .error (.pushErr m)) ∧
    (∀ (cfg : Config) (env : Env α) (a : String) (st : Nat) (b : String) (r : RewardData),
       env.transport (mkRequest (rewardURL cfg) (addressBody a)) = .success st b →
       env.decReward b = .ok r →
       (fetchProverReward cfg env [] a).result = .ok () ∨
         ∃ m, (fetchProverReward cfg env [] a).result = .error (.pushErr m)) ∧
    (∀ (cfg : Config) (env : Env α) (st : Nat) (b : String) (r : BlockData),
       env.transport (mkRequest (blockURL cfg) "") = .success st b →
       env.decBlock b = .ok r →
       (fetchLatestBlock cfg env []).result = .ok () ∨
         ∃ m, (fetchLatestBlock cfg env []).result = .error (.pushErr m)) := by
  refine ⟨?_, ?_, ?_, ?_, ?_⟩
  · intro env g xs item ys h
    simp [speedLoop, speedItemEv, h]
  · intro env g xs item ys h
    simp [rewardLoop, rewardItemEv, h]
  · intro cfg env a d dn st b r ht hd
    unfold fetchProverSpeed
    simp only [fetchData, ht, hd]
    simp only [mustRegister, proverSpeedId, totalSpeedId]
    cases hpt : env.parseFloat r.total <;> simp [hpt]
    exact pushOutcome_ok_or_pushErr env _
  · intro cfg env a st b r ht hd
    unfold fetchProverReward
    simp only [fetchData, ht, hd]
    simp only [mustRegister, totalRewardId]
    simp
    exact pushOutcome_ok_or_pushErr env _
  · intro cfg env st b r ht hd
    unfold fetchLatestBlock
    simp only [fetchData, ht, hd]
    simp only [mustRegister, latestBlockHeightId, proofTargetId, coinbaseRewardId]
    cases hpt : env.parseFloat r.proof_target <;>
      cases hcr : env.parseFloat r.coinbase_reward <;> simp [hpt, hcr]
    exact pushOutcome_ok_or_pushErr env _

/-- Claim C4 witness: the skip behaviour and the non-error return
evaluated in envW, whose speed list has the unparsable middle item "x". -/
theorem c4_witness :
    speedLoop envW (proverSpeedId "a" "15m")
        ([(⟨"a", "1"⟩ : SpeedItem)] ++ (⟨"a", "x"⟩ : SpeedItem) :: [(⟨"a", "2"⟩ : SpeedItem)]) =
      speedLoop envW (proverSpeedId "a" "15m") [⟨"a", "1"⟩] ++
        Ev.logInvalid "speed" "x" ::
          speedLoop envW (proverSpeedId "a" "15m") [⟨"a", "2"⟩] ∧
    ((fetchProverSpeed cfgW envW [] "a" 900 "15m").result = .ok () ∨
      ∃ m, (fetchProverSpeed cfgW envW [] "a" 900 "15m").result = .error (.pushErr m)) :=
  ⟨c4_parse_failures_graceful.1 envW _ _ _ _ (by decide),
   c4_parse_failures_graceful.2.2.1 cfgW envW "a" 900 "15m" 200 "resp" _ rfl rfl⟩

/-- Claim C5 counterexample: in envBadTotal the speed response's list item
parses (a prover_speed set event occurs in the cycle) but the total field
does not, so fetchProverSpeed returns nil early and no push in the whole
cycle carries the prover_speed gauge: a successfully parsed value is not
republished in its cycle, contradicting the claim. -/
theorem c5_counterexample :
    ((setsOf (fetchDataAndPush cfgW envBadTotal []).trace).any
        (fun s => s.1 == proverSpeedId "a" "15m") = true) ∧
    ((pushesOf (fetchDataAndPush cfgW envBadTotal []).trace).any
        (fun p => p.collectors.contains (proverSpeedId "a" "15m")) = false) ∧
    (fetchProverSpeed cfgW envBadTotal [] "a" 900 "15m").result = .ok () :=
  ⟨by decide, by decide, rfl⟩

/-- Claim C5 as amended: every fetch function that reaches its final push
ends its trace with that push: fetchProverSpeed pushes prover_speed and
total_speed under job prover_metrics provided the total field also parses,
fetchProverReward and fetchProverLatestHeight always push their gauge
under prover_metrics once the response decodes, and fetchLatestBlock
pushes its three gauges under latest_block_metrics provided proof_target
and coinbase_reward both parse.  (On a trailing parse failure the function
returns success without pushing, which is what the counterexample
exhibits.) -/
theorem c5_amended {α : Type} (cfg : Config) (env : Env α) (a : String) :
    (∀ (d : Nat) (dn : String) (st : Nat) (b : String) (r : SpeedData) (tv : α),
       env.transport (mkRequest (speedURL cfg) (speedBody a d)) = .success st b →
       env.decSpeed b = .ok r → env.parseFloat r.total = some tv →
       ∃ pre, (fetchProverSpeed cfg env [] a d dn).trace = pre ++
         [Ev.pushEv ⟨cfg.pushgatewayURL, "prover_metrics",
           [proverSpeedId a dn, totalSpeedId dn]⟩]) ∧
    (∀ (st : Nat) (b : String) (r : RewardData),
       env.transport (mkRequest (rewardURL cfg) (addressBody a)) = .success st b →
       env.decReward b = .ok r →
       ∃ pre, (fetchProverReward cfg env [] a).trace = pre ++
         [Ev.pushEv ⟨cfg.pushgatewayURL, "prover_metrics", [totalRewardId a]⟩]) ∧
    (∀ (st : Nat) (b : String) (items : List HeightItem),
       env.transport (mkRequest (heightURL cfg) (addressBody a)) = .success st b →
       env.decHeight b = .ok items →
       ∃ pre, (fetchProverLatestHeight cfg env [] a).trace = pre ++
         [Ev.pushEv ⟨cfg.pushgatewayURL, "prover_metrics", [proverHeightId a]⟩]) ∧
    (∀ (st : Nat) (b : String) (r : BlockData) (pv cv : α),
       env.transport (mkRequest (blockURL cfg) "") = .success st b →
       env.decBlock b = .ok r → env.parseFloat r.proof_target = some pv →
       env.parseFloat r.coinbase_reward = some cv →
       ∃ pre, (fetchLatestBlock cfg env []).trace = pre ++
         [Ev.pushEv ⟨cfg.pushgatewayURL, "latest_block_metrics",
           [latestBlockHeightId, proofTargetId, coinbaseRewardId]⟩]) := by
  refine ⟨?_, ?_, ?_, ?_⟩
  · intro d dn st b r tv ht hd hpt
    unfold fetchProverSpeed
    simp only [fetchData, ht, hd]
    simp only [mustRegister, proverSpeedId, totalSpeedId]
    simp only [hpt]
    refine ⟨Ev.query (mkRequest (speedURL cfg) (speedBody a d)) ::
      (speedLoop env (proverSpeedId a dn) r.list ++
        [Ev.gaugeSet (totalSpeedId dn) (GVal.ofParsed tv)]), ?_⟩
    simp [proverSpeedId, totalSpeedId]
  · intro st b r ht hd
    unfold fetchProverReward
    simp only [fetchData, ht, hd]
    simp only [mustRegister, totalRewardId]
    refine ⟨Ev.query (mkRequest (rewardURL cfg) (addressBody a)) ::
      rewardLoop env (totalRewardId a) r.list, ?_⟩
    simp [totalRewardId]
  · intro st b items ht hd
    unfold fetchProverLatestHeight
    simp only [fetchData, ht, hd]
    simp only [mustRegister, proverHeightId]
    refine ⟨Ev.query (mkRequest (heightURL cfg) (addressBody a)) ::
      heightLoop (proverHeightId a) items, ?_⟩
    simp [proverHeightId]
  · intro st b r pv cv ht hd hpt hcr
    unfold fetchLatestBlock
    simp only [fetchData, ht, hd]
    simp only [mustRegister, latestBlockHeightId, proofTargetId, coinbaseRewardId]
    simp only [hpt, hcr]
    refine ⟨Ev.query (mkRequest (blockURL cfg) "") ::
      (Ev.gaugeSet latestBlockHeightId (GVal.ofInt r.height) ::
        Ev.gaugeSet proofTargetId (GVal.ofParsed pv) ::
          [Ev.gaugeSet coinbaseRewardId (GVal.ofParsed cv)]), ?_⟩
    simp [latestBlockHeightId, proofTargetId, coinbaseRewardId]

/-- Claim C5 witness: the amended push property evaluated for the speed
fetch in envW. -/
theorem c5_witness :
    ∃ pre, (fetchProverSpeed cfgW envW [] "a" 900 "15m").trace = pre ++
      [Ev.pushEv ⟨cfgW.pushgatewayURL, "prover_metrics",
        [proverSpeedId "a" "15m", totalSpeedId "15m"]⟩] :=
  (c5_amended cfgW envW "a").1 900 "15m" 200 "resp" ⟨[⟨"a", "1"⟩, ⟨"a", "x"⟩, ⟨"a", "2"⟩], "7"⟩ 7
    rfl rfl (by decide)

/-- Claim C6 counterexample: the first and second cycles of a run receive
literally identical responses (the environment is the same function), yet
their pushes and queries differ, because the Prometheus default registry
persists across cycles and the second cycle panics on duplicate
registration: the poller is not stateless across cycles. -/
theorem c6_counterexample :
    pushesOf (nthCycle cfgW envW 0).trace ≠ pushesOf (nthCycle cfgW envW 1).trace ∧
    queriesOf (nthCycle cfgW envW 0).trace ≠ queriesOf (nthCycle cfgW envW 1).trace :=
  ⟨by decide, by decide⟩

/-- Claim C6 as amended: the behaviour of a cycle is a function of the
configuration, the responses, and the set of already-registered gauge
identities: two cycles of a run that start from equal registry states
produce identical traces (hence identical requests and pushes). -/
theorem c6_amended {α : Type} (cfg : Config) (env : Env α) (i j : Nat)
    (h : regAfter cfg env i = regAfter cfg env j) :
    nthCycle cfg env i = nthCycle cfg env j := by
  unfold nthCycle
  rw [h]

/-- Claim C6 witness: with a transport that always fails, the registry
never grows, so cycles 1 and 2 start from equal registry states and the
amended theorem yields equal cycle traces. -/
theorem c6_witness :
    regAfter cfgW envFailNet 0 = regAfter cfgW envFailNet 1 ∧
    nthCycle cfgW envFailNet 0 = nthCycle cfgW envFailNet 1 :=
  ⟨by decide, c6_amended cfgW envFailNet 0 1 (by decide)⟩

/-- Claim C7: every HTTP query the program ever issues is a POST with
Content-Type application/json to one of the four fixed paths under the
configured API base URL, with the body template of that endpoint: the
speed body interpolates a configured address and one of the four duration
second values, the reward and height bodies interpolate a configured
address, and the latest-block request carries an empty body. -/
theorem c7_query_shape {α : Type} (cfg : Config) (env : Env α) (ticks : Nat)
    (req : HttpRequest)
    (hm : req ∈ queriesOf (mainProg cfg env ticks).run.trace) :
    goodQuery cfg req := by
  unfold mainProg at hm
  split at hm
  · simp [queriesOf_nil] at hm
  · exact mem_queriesOf_runCycles cfg env _ _ hm

/-- Claim C7 witness: the theorem applied to a concrete query found in the
trace of a run of mainProg in envW. -/
theorem c7_witness : goodQuery cfgW (mkRequest (speedURL cfgW) (speedBody "a" 900)) :=
  c7_query_shape cfgW envW 0 (mkRequest (speedURL cfgW) (speedBody "a" 900)) (by decide)

/-- Claim C8: started with an empty address list, main logs the fatal
message "No addresses provided" and terminates with an empty trace (no
HTTP request, no push); with a non-empty list it proceeds, and its trace
starts with the trace of the first fetch-and-push cycle. -/
theorem c8_empty_addresses {α : Type} (cfg : Config) (env : Env α) (ticks : Nat) :
    (cfg.addresses = [] →
      (mainProg cfg env ticks).fatal = some "No addresses provided" ∧
      (mainProg cfg env ticks).run.trace = []) ∧
    (cfg.addresses ≠ [] →
      (mainProg cfg env ticks).fatal = none ∧
      ∃ rest, (mainProg cfg env ticks).run.trace =
        (fetchDataAndPush cfg env []).trace ++ rest) := by
  constructor
  · intro h
    simp [mainProg, h]
  · intro h
    refine ⟨by simp [mainProg, h], ?_⟩
    simp only [mainProg, h, if_neg]
    by_cases hp : (fetchDataAndPush cfg env []).panicked
    · exact ⟨[], by simp [runCycles, seqRun, hp]⟩
    · exact ⟨(runCycles cfg env ticks (fetchDataAndPush cfg env []).reg).trace,
        by simp [runCycles, seqRun, hp]⟩

/-- Claim C8 witness: both branches of the theorem evaluated on the empty
and the one-address configuration. -/
theorem c8_witness :
    (mainProg cfgEmpty envW 0).fatal = some "No addresses provided" ∧
    (mainProg cfgEmpty envW 0).run.trace = [] ∧
    (mainProg cfgW envW 0).fatal = none :=
  ⟨((c8_empty_addresses cfgEmpty envW 0).1 rfl).1,
   ((c8_empty_addresses cfgEmpty envW 0).1 rfl).2,
   ((c8_empty_addresses cfgW envW 0).2 (by decide)).1⟩

/-- Claim C9: fetchData performs no status-code check: whenever the round
trip succeeds it returns the body with a nil error whatever the status
code, and it returns a non-nil error exactly when request creation, the
round trip, or reading the body fails. -/
theorem c9_fetchData_status_ignored {α : Type} (env : Env α) (url body : String) :
    (∀ st data, env.transport (mkRequest url body) = .success st data →
      (fetchData env url body).res = .ok data ∧
      (fetchData env url body).trace = [.query (mkRequest url body)]) ∧
    (env.transport (mkRequest url body) = .createFail →
      (fetchData env url body).res = .error .createErr ∧
      (fetchData env url body).trace = []) ∧
    (env.transport (mkRequest url body) = .roundTripFail →
      (fetchData env url body).res = .error .sendErr) ∧
    (env.transport (mkRequest url body) = .readFail →
      (fetchData env url body).res = .error .readErr) := by
  refine ⟨fun st data h => ?_, fun h => ?_, fun h => ?_, fun h => ?_⟩ <;>
    simp [fetchData, h]

/-- Claim C9 witness: a 404 response body is returned with a nil error,
and a failed round trip yields the send error. -/
theorem c9_witness :
    (fetchData env404 "u" "b").res = .ok "notfound" ∧
    (fetchData envFailNet "u" "b").res = .error .sendErr :=
  ⟨((c9_fetchData_status_ignored env404 "u" "b").1 404 "notfound" rfl).1,
   (c9_fetchData_status_ignored envFailNet "u" "b").2.2.1 rfl⟩

/-- Claim C10 counterexample: the claimed equivalence fails in both
directions beyond the forced one.  The address consisting of quote, comma,
quote contains a character requiring JSON escaping, yet the interpolated
body is well-formed JSON (a two-element list injection); and the address
"<" requires no JSON escaping, yet the interpolated body differs from the
toJSON encoding, because Go's Marshal additionally escapes HTML
characters. -/
theorem c10_counterexample :
    (jsonCleanString "\",\"" = false ∧ WellFormedJson (addressBody "\",\"")) ∧
    (jsonCleanString "<" = true ∧ addressBody "<" ≠ canonicalAddressBody "<") :=
  ⟨⟨by decide, ⟨.obj [("address", .arr [.str "", .str ""])], by decide⟩⟩,
   by decide, by decide⟩

/-- Claim C10 as amended: if the address contains no character requiring
JSON string escaping (quote, backslash, control) the interpolated bodies
are well-formed JSON, but not only if; and the interpolated body equals
the canonical toJSON encoding of the payload under the stronger condition
that the address contains no character Go's json.Marshal escapes (which
adds the HTML characters and the Unicode line separators). -/
theorem c10_amended (a : String) (d : Nat) :
    (jsonCleanString a = true →
      WellFormedJson (speedBody a d) ∧ WellFormedJson (addressBody a)) ∧
    (goCleanString a = true →
      speedBody a d = canonicalSpeedBody a d ∧ addressBody a = canonicalAddressBody a) :=
  ⟨fun h => ⟨⟨_, speedBody_renders d h⟩, ⟨_, addressBody_renders h⟩⟩,
   fun h => ⟨speedBody_canonical d h, addressBody_canonical h⟩⟩

/-- Claim C10 witness: both amended implications evaluated at a clean
address. -/
theorem c10_witness :
    (WellFormedJson (speedBody "aleo1abc" 900) ∧ WellFormedJson (addressBody "aleo1abc")) ∧
    (speedBody "aleo1abc" 900 = canonicalSpeedBody "aleo1abc" 900 ∧
      addressBody "aleo1abc" = canonicalAddressBody "aleo1abc") :=
  ⟨(c10_amended "aleo1abc" 900).1 (by decide), (c10_amended "aleo1abc" 900).2 (by decide)⟩

end AleoMon
